import Mathlib

/-!
Verification development for the cosmogony pipeline (src/src/lib.rs).

The file shallowly embeds the orchestration code of `lib.rs` and the
interfaces of the modules it drives.  Functions present in `lib.rs`
(`is_admin`, `get_zones_and_stats`, `get_zones_and_stats_without_geom`,
`get_country_code`, `type_zones`, `compute_labels`, `clean_untagged_zones`,
`create_ontology`, `build_cosmogony`) are translated directly from the
source.  Modules used by `lib.rs` whose sources are not in the repository
snapshot (`zone.rs`, `zone_typer.rs`, `country_finder.rs`,
`hierarchy_builder.rs`, `mutable_slice.rs`, `cosmogony.rs`) are modelled
from the specification, as indicated on each such definition.  Machine
input (the decoded PBF content) is passed as a list of OSM objects, and
boundary-polygon assembly, which the specification treats as an external
collaborator, is passed as an oracle function; boundaries themselves are
modelled as finite sets of sample points, with containment as point-set
inclusion and area as point count.
-/

/-- Boundaries are modelled as finite lists of integer sample points;
geometric containment is point-set inclusion and area is the point count. -/
abbrev Boundary := List (Int × Int)

/-- Modelled from the spec: the external ingestion collaborator decodes raw
OSM relation objects carrying an id and a tag mapping. -/
structure OsmRelation where
  id : Nat
  tags : List (String × String)
deriving DecidableEq

/-- Modelled from the spec: the decoded source extract contains nodes, ways
and relations; only relations carry data the core uses. -/
inductive OsmObj where
  | node : Nat → OsmObj
  | way : Nat → OsmObj
  | relation : OsmRelation → OsmObj
deriving DecidableEq

/-- Lookup of a tag value in a tag mapping (first matching key). -/
def tagsGet (tags : List (String × String)) (k : String) : Option String :=
  (tags.find? (fun p => p.1 == k)).map (fun p => p.2)

/-- ZoneIndex: opaque positional handle into the active zone collection
(from zone.rs usage in lib.rs). -/
structure ZoneIndex where
  index : Nat
deriving DecidableEq

/-- Modelled from the spec: the closed, roughly nesting-ranked set of zone
types, with NonAdministrative as the catch-all (zone.rs is not under src/). -/
inductive ZoneType where
  | Suburb
  | CityDistrict
  | City
  | StateDistrict
  | State
  | CountryRegion
  | Country
  | NonAdministrative
deriving DecidableEq

/-- Modelled from the spec: a Zone carries an external id, name, optional
admin level, optional boundary, optional country code, optional type,
optional parent index, child indices, optional composed label and the tag
mapping (zone.rs is not under src/). -/
structure Zone where
  idx : ZoneIndex
  osm_id : Nat
  name : String
  admin_level : Option Nat
  zone_type : Option ZoneType
  parent : Option ZoneIndex
  children : List ZoneIndex
  label : Option String
  boundary : Option Boundary
  tags : List (String × String)
  country_code : Option String
deriving DecidableEq

/-- Default zone used as the out-of-range placeholder for list indexing. -/
def defaultZone : Zone :=
  { idx := ZoneIndex.mk 0, osm_id := 0, name := "", admin_level := none,
    zone_type := none, parent := none, children := [], label := none,
    boundary := none, tags := [], country_code := none }

/-- Modelled from the spec: run statistics counters used by lib.rs —
zones dropped for missing country, per-country unknown-country-rule counts,
per-country per-level unhandled-admin-level counts, and the final type
distribution (cosmogony.rs is not under src/). -/
structure CosmogonyStats where
  zone_without_country : Nat := 0
  zone_with_unkwown_country_rules : List (String × Nat) := []
  unhandled_admin_level : List (String × List (Nat × Nat)) := []
  zone_type_distribution : List (ZoneType × Nat) := []
deriving DecidableEq

structure CosmogonyMetadata where
  osm_filename : String
  stats : CosmogonyStats
deriving DecidableEq

structure Cosmogony where
  zones : List Zone
  meta : CosmogonyMetadata
deriving DecidableEq

/-- Translated from src/src/lib.rs lines 41-52: a candidate object is an OSM
relation tagged boundary=administrative with an admin_level tag present. -/
def is_admin (obj : OsmObj) : Bool :=
  match obj with
  | OsmObj.relation rel =>
      (((tagsGet rel.tags "boundary").map (fun v => v == "administrative")).getD false)
        && (tagsGet rel.tags "admin_level").isSome
  | _ => false

/-- Decimal parse of a tag value into a number, none when the value is
empty or holds a non-digit character. -/
def parseNatStr (s : String) : Option Nat :=
  if s.data.isEmpty then none
  else if s.data.all (fun c => c.isDigit) then
    some (s.data.foldl (fun n c => n * 10 + (c.toNat - 48)) 0)
  else none

/-- Modelled from the spec: ingestion decodes a relation into a zone
candidate with id, name, optional parsed admin level, tags, and everything
else unset (zone.rs Zone::from_osm is not under src/). -/
def from_osm (rel : OsmRelation) (next_index : ZoneIndex) : Option Zone :=
  some
    { idx := next_index, osm_id := rel.id,
      name := (tagsGet rel.tags "name").getD "",
      admin_level := (tagsGet rel.tags "admin_level").bind parseNatStr,
      zone_type := none, parent := none, children := [], label := none,
      boundary := none, tags := rel.tags, country_code := none }

/-- Modelled from the spec: the geometry-bearing variant additionally asks
the external multipolygon-assembly collaborator (passed as the oracle
`geom`) for the boundary (zone.rs Zone::from_osm_with_geom is not under
src/). -/
def from_osm_with_geom (geom : OsmRelation → Option Boundary)
    (rel : OsmRelation) (next_index : ZoneIndex) : Option Zone :=
  (from_osm rel next_index).map (fun z => { z with boundary := geom rel })

/-- Translated from src/src/lib.rs lines 65-78: the ingestion loop of
get_zones_and_stats — keep admin relations, build the zone with geometry,
and push it only when a boundary polygon is present. -/
def ingestGeom (geom : OsmRelation → Option Boundary) :
    List OsmObj → List Zone → List Zone
  | [], zs => zs
  | obj :: rest, zs =>
      ingestGeom geom rest
        (if is_admin obj then
          match obj with
          | OsmObj.relation rel =>
              match from_osm_with_geom geom rel (ZoneIndex.mk zs.length) with
              | some z => if z.boundary.isSome then zs ++ [z] else zs
              | none => zs
          | _ => zs
        else zs)

/-- Translated from src/src/lib.rs lines 54-81: geometry-mode ingestion over
the decoded extract, returning the zones and default statistics. -/
def get_zones_and_stats (geom : OsmRelation → Option Boundary)
    (objs : List OsmObj) : List Zone × CosmogonyStats :=
  (ingestGeom geom objs [], {})

/-- Translated from src/src/lib.rs lines 91-101: the ingestion loop of
get_zones_and_stats_without_geom — keep admin relations and push the
geometry-free zone unconditionally. -/
def ingestNoGeom : List OsmObj → List Zone → List Zone
  | [], zs => zs
  | obj :: rest, zs =>
      ingestNoGeom rest
        (if is_admin obj then
          match obj with
          | OsmObj.relation rel =>
              match from_osm rel (ZoneIndex.mk zs.length) with
              | some z => zs ++ [z]
              | none => zs
          | _ => zs
        else zs)

/-- Translated from src/src/lib.rs lines 83-104: lightweight ingestion over
the decoded extract, returning the zones and default statistics. -/
def get_zones_and_stats_without_geom (objs : List OsmObj) :
    List Zone × CosmogonyStats :=
  (ingestNoGeom objs [], {})

/-- Modelled from the spec: the CountryFinder indexes country-level zones
by code and spatial extent (country_finder.rs is not under src/). -/
structure CountryFinder where
  countries : List (String × Boundary)
deriving DecidableEq

/-- Modelled from the spec: building the index over the zone collection —
a zone is indexed when it carries a country code tag and a boundary
(country_finder.rs is not under src/). -/
def countryFinderOfZones (zones : List Zone) : CountryFinder :=
  { countries :=
      zones.foldr
        (fun z acc =>
          match tagsGet z.tags "ISO3166-1:alpha2", z.boundary with
          | some code, some b => (code, b) :: acc
          | _, _ => acc) [] }

/-- Emptiness of the country index. -/
def CountryFinder.isEmptyB (f : CountryFinder) : Bool :=
  f.countries.isEmpty

/-- Modelled from the spec: spatial country resolution — the country whose
indexed boundary contains the zone representative point (here the first
sample point of its boundary), or none (country_finder.rs is not under
src/). -/
def find_zone_country (f : CountryFinder) (z : Zone) : Option String :=
  match z.boundary with
  | none => none
  | some b =>
      match b.head? with
      | none => none
      | some p => (f.countries.find? (fun c => c.2.contains p)).map (fun c => c.1)

/-- Translated from src/src/lib.rs lines 106-116: an explicit caller country
code always wins; otherwise ask the country finder. -/
def get_country_code (country_finder : CountryFinder) (zone : Zone)
    (country_code : Option String) : Option String :=
  match country_code with
  | some c => some c
  | none => find_zone_country country_finder zone

/-- Classification errors of the zone typer (the source spelling UnkownLevel
is kept from lib.rs lines 149-153). -/
inductive ZoneTyperError where
  | invalidCountry : String → ZoneTyperError
  | unkownLevel : Option Nat → String → ZoneTyperError
deriving DecidableEq

/-- Modelled from the spec: the per-country rule table entry — a direct
admin-level-to-type mapping plus tag-based fallback rules that classify a
tag-recognizable boundary as NonAdministrative (zone_typer.rs is not under
src/). -/
structure CountryRules where
  byLevel : List (Nat × ZoneType)
  fallbackTags : List (String × String)
deriving DecidableEq

/-- Modelled from the spec: the zone typer is the immutable rule table
country-code to per-country rules, loaded once (zone_typer.rs is not under
src/). -/
structure ZoneTyper where
  rules : List (String × CountryRules)
deriving DecidableEq

/-- Modelled from the spec: the type one rank finer than a given type in the
nesting-depth ranking; the finest rank and the catch-all have none. -/
def finerType : ZoneType → Option ZoneType
  | ZoneType.Country => some ZoneType.CountryRegion
  | ZoneType.CountryRegion => some ZoneType.State
  | ZoneType.State => some ZoneType.StateDistrict
  | ZoneType.StateDistrict => some ZoneType.City
  | ZoneType.City => some ZoneType.CityDistrict
  | ZoneType.CityDistrict => some ZoneType.Suburb
  | ZoneType.Suburb => none
  | ZoneType.NonAdministrative => none

/-- Modelled from the spec: a tag-based fallback rule fires when one of the
configured tag pairs occurs in the zone tags. -/
def tagFallback (ct : CountryRules) (z : Zone) : Bool :=
  ct.fallbackTags.any (fun p => tagsGet z.tags p.1 == some p.2)

/-- Modelled from the spec: ancestor-chain resolution — take the nearest
(tightest-first) candidate ancestor whose type is already resolved and infer
the type one rank finer, when that exists. -/
def ancestorInferred (zones : List Zone) (ancestors : List ZoneIndex) :
    Option ZoneType :=
  match ancestors.find?
      (fun a => ((zones.getD a.index defaultZone).zone_type).isSome) with
  | some a => ((zones.getD a.index defaultZone).zone_type).bind finerType
  | none => none

/-- Modelled from the spec: classification of one zone, section 4.3 —
no rules for the country gives InvalidCountry; a direct rule for the admin
level is used; otherwise ancestor-chain inference, then the tag fallback;
still unresolved gives UnkownLevel.  When the zone has no admin level only
the tag fallback applies (conservative policy of section 9 and Scenario C)
(zone_typer.rs is not under src/). -/
def get_zone_type (typer : ZoneTyper) (zone : Zone) (country : String)
    (ancestors : List ZoneIndex) (zones : List Zone) :
    Except ZoneTyperError ZoneType :=
  match (typer.rules.find? (fun p => p.1 == country)).map (fun p => p.2) with
  | none => Except.error (ZoneTyperError.invalidCountry country)
  | some ct =>
      match zone.admin_level with
      | some lvl =>
          match (ct.byLevel.find? (fun p => p.1 == lvl)).map (fun p => p.2) with
          | some t => Except.ok t
          | none =>
              match ancestorInferred zones ancestors with
              | some t => Except.ok t
              | none =>
                  if tagFallback ct zone then Except.ok ZoneType.NonAdministrative
                  else Except.error (ZoneTyperError.unkownLevel (some lvl) country)
      | none =>
          if tagFallback ct zone then Except.ok ZoneType.NonAdministrative
          else Except.error (ZoneTyperError.unkownLevel none country)

/-- Increment of an association-list counter at a key, inserting the key at
count one when absent (the BTreeMap entry-or-insert-then-add pattern of
lib.rs lines 151 and 158-163). -/
def incrKey {α : Type} [DecidableEq α] (k : α) :
    List (α × Nat) → List (α × Nat)
  | [] => [(k, 1)]
  | (k₀, v) :: rest =>
      if k₀ = k then (k₀, v + 1) :: rest else (k₀, v) :: incrKey k rest

/-- Increment of the nested per-country per-level counter (lib.rs lines
158-163: entry(country).or_insert(BTreeMap::new()).entry(lvl).or_insert(0)). -/
def bumpLevel (c : String) (lvl : Nat) :
    List (String × List (Nat × Nat)) → List (String × List (Nat × Nat))
  | [] => [(c, [(lvl, 1)])]
  | (k₀, inner) :: rest =>
      if k₀ = c then (k₀, incrKey lvl inner) :: rest
      else (k₀, inner) :: bumpLevel c lvl rest

/-- Translated from src/src/lib.rs lines 133-167: the body of the
classification loop for index i — resolve the country (counting zones
without one), classify, store a successful type, and absorb classification
errors into the statistics counters. -/
def typeZoneStep (typer : ZoneTyper) (finder : CountryFinder)
    (cc : Option String) (inclusions : List (List ZoneIndex)) (i : Nat)
    (s : List Zone × CosmogonyStats) : List Zone × CosmogonyStats :=
  match get_country_code finder (s.1.getD i defaultZone) cc with
  | none =>
      (s.1, { s.2 with zone_without_country := s.2.zone_without_country + 1 })
  | some country =>
      match get_zone_type typer (s.1.getD i defaultZone) country
          (inclusions.getD i []) s.1 with
      | Except.ok t =>
          (s.1.set i { s.1.getD i defaultZone with zone_type := some t }, s.2)
      | Except.error (ZoneTyperError.invalidCountry c) =>
          (s.1, { s.2 with zone_with_unkwown_country_rules :=
                    incrKey c s.2.zone_with_unkwown_country_rules })
      | Except.error (ZoneTyperError.unkownLevel lvl c) =>
          (s.1, { s.2 with unhandled_admin_level :=
                    bumpLevel c (lvl.getD 0) s.2.unhandled_admin_level })

/-- The classification loop over a list of indices (lib.rs line 133:
for i in 0..zones.len()). -/
def typeZonesFrom (typer : ZoneTyper) (finder : CountryFinder)
    (cc : Option String) (inclusions : List (List ZoneIndex)) :
    List Nat → List Zone × CosmogonyStats → List Zone × CosmogonyStats
  | [], s => s
  | i :: rest, s =>
      typeZonesFrom typer finder cc inclusions rest
        (typeZoneStep typer finder cc inclusions i s)

/-- Translated from src/src/lib.rs lines 118-170: build the country finder,
fail fast when no explicit country code is given and the finder is empty,
otherwise run the per-zone classification loop and return Ok. -/
def type_zones (zones : List Zone) (stats : CosmogonyStats)
    (typer : ZoneTyper) (country_code : Option String)
    (inclusions : List (List ZoneIndex)) :
    Except String (List Zone × CosmogonyStats) :=
  if country_code.isNone && (countryFinderOfZones zones).isEmptyB then
    Except.error "no country_code has been provided and no country have been found, we will not be able to make a cosmogony"
  else
    Except.ok (typeZonesFrom typer (countryFinderOfZones zones) country_code
      inclusions (List.range zones.length) (zones, stats))

/-- Area of a boundary in the point-set model. -/
def areaB (b : Boundary) : Nat := b.length

/-- Containment of one boundary in another in the point-set model. -/
def containsB (outer inner : Boundary) : Bool :=
  inner.all (fun p => outer.contains p)

/-- Modelled from the spec: zone j is an inclusion candidate ancestor of
zone i when both carry boundaries and the boundary of j contains the
boundary of i; a zone never lists itself (hierarchy_builder.rs is not under
src/). -/
def inclusionCandidate (zs : List Zone) (i j : Nat) : Bool :=
  (j != i)
    && (match (zs.getD i defaultZone).boundary, (zs.getD j defaultZone).boundary with
        | some bi, some bj => containsB bj bi
        | _, _ => false)

/-- Sorting key of a candidate ancestor: ascending boundary area (tightest
containing boundary first, country-level last), then the stable external id
as the deterministic tie break. -/
def candKey (zs : List Zone) (j : Nat) : Nat × Nat :=
  (areaB (((zs.getD j defaultZone).boundary).getD []),
   (zs.getD j defaultZone).osm_id)

/-- Lexicographic comparison of candidate keys. -/
def keyLe (a b : Nat × Nat) : Bool :=
  decide (a.1 < b.1) || (decide (a.1 = b.1) && decide (a.2 ≤ b.2))

/-- Insertion into a candidate list sorted by candKey. -/
def insertSorted (zs : List Zone) (j : Nat) : List Nat → List Nat
  | [] => [j]
  | k :: rest =>
      if keyLe (candKey zs j) (candKey zs k) then j :: k :: rest
      else k :: insertSorted zs j rest

/-- Insertion sort of candidate ancestors by candKey. -/
def sortCands (zs : List Zone) (l : List Nat) : List Nat :=
  l.foldr (insertSorted zs) []

/-- Modelled from the spec: per-zone ordered candidate-ancestor lists,
tightest containing boundary first, ties broken on area then stable id
(hierarchy_builder.rs find_inclusions is not under src/). -/
def find_inclusions (zones : List Zone) : List (List ZoneIndex) :=
  (List.range zones.length).map (fun i =>
    (sortCands zones
        ((List.range zones.length).filter (fun j => inclusionCandidate zones i j))).map
      (fun j => ZoneIndex.mk j))

/-- Fuelled ancestor test along the parent links built so far: is i among
the ancestors of j. -/
def isAncestor (zs : List Zone) : Nat → Nat → Nat → Bool
  | 0, _, _ => false
  | fuel + 1, i, j =>
      match (zs.getD j defaultZone).parent with
      | none => false
      | some p => (p.index == i) || isAncestor zs fuel i p.index

/-- Modelled from the spec: scan the ordered candidate list and pick the
first candidate that is not the zone itself and not already a descendant of
it (the cycle guard); none means the zone is a root. -/
def chooseParent (zs : List Zone) (i : Nat) (cands : List ZoneIndex) :
    Option ZoneIndex :=
  cands.find? (fun c => (c.index != i) && !(isAncestor zs zs.length i c.index))

/-- Wiring of the inverse child link: append i to the child list of the
zone at position c. -/
def addChildLink (c : ZoneIndex) (i : Nat) (zs : List Zone) : List Zone :=
  zs.set c.index
    { zs.getD c.index defaultZone with
      children := (zs.getD c.index defaultZone).children ++ [ZoneIndex.mk i] }

/-- Modelled from the spec: one hierarchy step — set the chosen parent of
zone i and wire the inverse child link (hierarchy_builder.rs is not under
src/). -/
def hierStep (inclusions : List (List ZoneIndex)) (i : Nat)
    (zs : List Zone) : List Zone :=
  match chooseParent zs i (inclusions.getD i []) with
  | none => zs
  | some c =>
      addChildLink c i (zs.set i { zs.getD i defaultZone with parent := some c })

/-- Modelled from the spec: a single linear pass assigning one parent per
zone from its candidate list (hierarchy_builder.rs build_hierarchy is not
under src/). -/
def build_hierarchy (zones : List Zone)
    (inclusions : List (List ZoneIndex)) : List Zone :=
  (List.range zones.length).foldl (fun zs i => hierStep inclusions i zs) zones

/-- Fuelled walk of the parent chain of zone i, outward. -/
def parentChain (zs : List Zone) : Nat → Nat → List Nat
  | 0, _ => []
  | fuel + 1, i =>
      match (zs.getD i defaultZone).parent with
      | none => []
      | some p => p.index :: parentChain zs fuel p.index

/-- Indices of the other zones sharing the name of zone i. -/
def sameNamed (zs : List Zone) (i : Nat) : List Nat :=
  (List.range zs.length).filter (fun j =>
    (j != i) && ((zs.getD j defaultZone).name == (zs.getD i defaultZone).name))

/-- Names along the parent chain of zone i. -/
def ancestorNames (zs : List Zone) (i : Nat) : List String :=
  (parentChain zs zs.length i).map (fun a => (zs.getD a defaultZone).name)

/-- Modelled from the spec: the name of the nearest ancestor that
disambiguates zone i from every other same-named zone. -/
def disambAncestorName (zs : List Zone) (i : Nat) : Option String :=
  (ancestorNames zs i).find? (fun nm =>
    (sameNamed zs i).all (fun j => !((ancestorNames zs j).contains nm)))

/-- Modelled from the spec: the composed label of zone i — its name,
suffixed by the nearest disambiguating ancestor name when another zone
shares the name and such an ancestor exists (zone.rs compute_labels with
mutable_slice.rs is not under src/; the model reads an immutable snapshot
of ancestor names and writes only the label of zone i). -/
def computeLabelFor (zs : List Zone) (i : Nat) : String :=
  let z := zs.getD i defaultZone
  if (sameNamed zs i).isEmpty then z.name
  else
    match disambAncestorName zs i with
    | some nm => z.name ++ ", " ++ nm
    | none => z.name

/-- One label-composition step: write the label of zone i only. -/
def labelStep (i : Nat) (zs : List Zone) : List Zone :=
  zs.set i { zs.getD i defaultZone with label := some (computeLabelFor zs i) }

/-- Translated from src/src/lib.rs lines 172-178: compose the label of every
zone in index order. -/
def compute_labels (zones : List Zone) : List Zone :=
  (List.range zones.length).foldl (fun zs i => labelStep i zs) zones

/-- Translated from src/src/lib.rs lines 180-183: retain only the zones
whose type resolved. -/
def clean_untagged_zones (zones : List Zone) : List Zone :=
  zones.filter (fun z => z.zone_type.isSome)

/-- Translated from src/src/lib.rs lines 185-206: inclusions, typing,
hierarchy, labels, then pruning of untyped zones. -/
def create_ontology (zones : List Zone) (stats : CosmogonyStats)
    (typer : ZoneTyper) (country_code : Option String) :
    Except String (List Zone × CosmogonyStats) :=
  match type_zones zones stats typer country_code (find_inclusions zones) with
  | Except.error e => Except.error e
  | Except.ok (zs, st) =>
      Except.ok
        (clean_untagged_zones
          (compute_labels (build_hierarchy zs (find_inclusions zones))), st)

/-- Modelled from the spec: the statistics finalization fills the final type
distribution over the pruned set and leaves the failure counters untouched
(cosmogony.rs CosmogonyStats::compute is not under src/). -/
def CosmogonyStats.compute (st : CosmogonyStats) (zones : List Zone) :
    CosmogonyStats :=
  { st with zone_type_distribution :=
      (zones.foldl
        (fun m z =>
          match z.zone_type with
          | some t => incrKey t m
          | none => m) []) }

/-- Selection of the ingestion mode (lib.rs lines 219-223): zones and
statistics with geometry when the flag is set, without otherwise. -/
def ingested (objs : List OsmObj) (geom : OsmRelation → Option Boundary)
    (with_geom : Bool) : List Zone × CosmogonyStats :=
  if with_geom then get_zones_and_stats geom objs
  else get_zones_and_stats_without_geom objs

/-- Translated from src/src/lib.rs lines 208-239: the full run — ingest with
or without geometry from the decoded extract, build the ontology, finalize
statistics and package the Cosmogony (file decoding is the external
collaborator; the decoded object list, the boundary oracle and the loaded
rule table are the inputs). -/
def build_cosmogony (objs : List OsmObj) (geom : OsmRelation → Option Boundary)
    (osm_filename : String) (with_geom : Bool) (typer : ZoneTyper)
    (country_code : Option String) : Except String Cosmogony :=
  match create_ontology (ingested objs geom with_geom).1
      (ingested objs geom with_geom).2 typer country_code with
  | Except.error e => Except.error e
  | Except.ok (zones, stats) =>
      Except.ok
        { zones := zones,
          meta := { osm_filename := osm_filename, stats := stats.compute zones } }

/-! Concrete fixtures used by witnesses and counterexamples. -/

/-- Boundary oracle returning no boundary for any relation. -/
def gnone : OsmRelation → Option Boundary := fun _ => none

/-- Rule table fixture: country ZZ maps admin level 2 to Country and level 8
to City, with no tag fallback rules. -/
def typerZZ : ZoneTyper :=
  { rules := [("ZZ",
      { byLevel := [(2, ZoneType.Country), (8, ZoneType.City)],
        fallbackTags := [] })] }

/-- Rule table fixture with no country rules at all. -/
def typerEmpty : ZoneTyper := { rules := [] }

/-- Admin relation fixture at level 2. -/
def relAdm : OsmRelation :=
  { id := 21,
    tags := [("boundary", "administrative"), ("admin_level", "2"),
             ("name", "Alpha")] }

/-- Admin relation fixture whose admin_level tag value does not parse. -/
def relBad : OsmRelation :=
  { id := 10,
    tags := [("boundary", "administrative"), ("admin_level", "x"),
             ("name", "Bad")] }

/-- Admin relation fixture at level 2 with a boundary covering the city. -/
def relCountry : OsmRelation :=
  { id := 11,
    tags := [("boundary", "administrative"), ("admin_level", "2"),
             ("name", "Fr")] }

/-- Admin relation fixture at level 8. -/
def relCity : OsmRelation :=
  { id := 12,
    tags := [("boundary", "administrative"), ("admin_level", "8"),
             ("name", "Paris")] }

/-- Admin relation fixture at level 9, for which typerZZ has no rule. -/
def relLvl9 : OsmRelation :=
  { id := 13,
    tags := [("boundary", "administrative"), ("admin_level", "9"),
             ("name", "Nine")] }

/-- Extract fixture mixing a node, a way and one admin relation. -/
def objsMix : List OsmObj :=
  [OsmObj.node 1, OsmObj.way 2, OsmObj.relation relAdm]

/-- Boundary oracle giving every relation a one-point boundary. -/
def geomAll : OsmRelation → Option Boundary := fun _ => some [(0, 0)]

/-- Empty cosmogony used as the default when projecting an Except value. -/
def cosmoDefault : Cosmogony :=
  { zones := [], meta := { osm_filename := "", stats := {} } }

/-- Extract fixture for the pruning counterexample: an unparsable-level
relation, a containing level-2 relation and a contained level-8 relation. -/
def objs5 : List OsmObj :=
  [OsmObj.relation relBad, OsmObj.relation relCountry, OsmObj.relation relCity]

/-- Boundary oracle for the pruning counterexample: the level-2 boundary
contains the level-8 boundary and is disjoint from the unparsable one. -/
def geom5 : OsmRelation → Option Boundary := fun r =>
  if r.id = 10 then some [(5, 5)]
  else if r.id = 11 then some [(0, 0), (1, 0), (0, 1)]
  else if r.id = 12 then some [(0, 0)]
  else none

/-- The pruning-counterexample run: geometry mode, explicit country ZZ. -/
def c5run : Except String Cosmogony :=
  build_cosmogony objs5 geom5 "f" true typerZZ (some "ZZ")

/-- Rule table fixture for Scenario C: country ZZ with only level 2 mapped
and no tag fallback rules. -/
def typer4 : ZoneTyper :=
  { rules := [("ZZ", { byLevel := [(2, ZoneType.Country)], fallbackTags := [] })] }

/-- Scenario C relation: boundary-tagged, admin_level tag present but not a
number. -/
def rel4 : OsmRelation :=
  { id := 10,
    tags := [("boundary", "administrative"), ("admin_level", "junk"),
             ("name", "X")] }

/-- Scenario C extract fixture. -/
def objs4 : List OsmObj := [OsmObj.relation rel4]

/-- The zone ingested from the Scenario C relation. -/
def zone4 : Zone := (from_osm rel4 (ZoneIndex.mk 0)).getD defaultZone

/-- Run for the typed-survivors witness: one level-2 relation under explicit
country ZZ, lightweight mode. -/
def c1run : Except String Cosmogony :=
  build_cosmogony [OsmObj.relation relAdm] gnone "f" false typerZZ (some "ZZ")

/-- The cosmogony produced by the typed-survivors witness run. -/
def c1res : Cosmogony := c1run.toOption.getD cosmoDefault

/-- Extract fixture for the statistics-accounting witness: one typed zone,
one unparsable level, one unhandled level. -/
def objs7 : List OsmObj :=
  [OsmObj.relation relAdm, OsmObj.relation relBad, OsmObj.relation relLvl9]

/-- Run for the statistics-accounting witness. -/
def c7run : Except String Cosmogony :=
  build_cosmogony objs7 gnone "f" false typerZZ (some "ZZ")

/-- The cosmogony produced by the statistics-accounting witness run. -/
def c7res : Cosmogony := c7run.toOption.getD cosmoDefault

/-- Zone fixture with a resolved type. -/
def zoneTyped : Zone := { defaultZone with zone_type := some ZoneType.Country }

/-- C6: if an explicit country code is supplied, get_country_code returns it
for every zone regardless of the finder; spatial inference via
find_zone_country is consulted exactly when no explicit code is given. -/
theorem c6_explicit_country_overrides :
    (∀ (finder : CountryFinder) (z : Zone) (c : String),
        get_country_code finder z (some c) = some c)
    ∧ (∀ (finder : CountryFinder) (z : Zone),
        get_country_code finder z none = find_zone_country finder z) :=
  ⟨fun _ _ _ => rfl, fun _ _ => rfl⟩

/-! Helper notions and lemmas shared by several claims. -/

/-- Total of an association-list counter. -/
def sumCounts {α : Type} (m : List (α × Nat)) : Nat :=
  (m.map (fun p => p.2)).sum

/-- Total of the nested per-country per-level counter. -/
def sumCounts2 (m : List (String × List (Nat × Nat))) : Nat :=
  (m.map (fun p => sumCounts p.2)).sum

/-- Total of the three failure counters of the run statistics. -/
def totalFailStats (st : CosmogonyStats) : Nat :=
  st.zone_without_country + sumCounts st.zone_with_unkwown_country_rules
    + sumCounts2 st.unhandled_admin_level

/-- Count of zones whose type resolved. -/
def typedCount (zs : List Zone) : Nat :=
  (zs.filter (fun z => z.zone_type.isSome)).length

theorem sumCounts_incrKey {α : Type} [DecidableEq α] (k : α) :
    ∀ m : List (α × Nat), sumCounts (incrKey k m) = sumCounts m + 1 := by
  intro m
  induction m with
  | nil => rfl
  | cons p rest ih =>
      obtain ⟨k₀, v⟩ := p
      by_cases h : k₀ = k
      · simp [incrKey, h, sumCounts]
        omega
      · simp only [incrKey, if_neg h, sumCounts, List.map_cons, List.sum_cons]
        simp only [sumCounts] at ih
        omega

theorem sumCounts2_bumpLevel (c : String) (lvl : Nat) :
    ∀ m : List (String × List (Nat × Nat)),
      sumCounts2 (bumpLevel c lvl m) = sumCounts2 m + 1 := by
  intro m
  induction m with
  | nil => simp [bumpLevel, sumCounts2, sumCounts]
  | cons p rest ih =>
      obtain ⟨k₀, inner⟩ := p
      by_cases h : k₀ = c
      · simp only [bumpLevel, if_pos h, sumCounts2, List.map_cons, List.sum_cons]
        have := sumCounts_incrKey lvl inner
        omega
      · simp only [bumpLevel, if_neg h, sumCounts2, List.map_cons, List.sum_cons]
        simp only [sumCounts2] at ih
        omega

theorem typedCount_nil : typedCount [] = 0 := rfl

theorem typedCount_cons (z : Zone) (zs : List Zone) :
    typedCount (z :: zs)
      = (if z.zone_type.isSome then 1 else 0) + typedCount zs := by
  by_cases h : z.zone_type.isSome
  · simp [typedCount, List.filter_cons, h]
    omega
  · simp [typedCount, List.filter_cons, h]

theorem typedCount_eq_zero :
    ∀ zs : List Zone, (∀ z ∈ zs, z.zone_type = none) → typedCount zs = 0 := by
  intro zs
  induction zs with
  | nil => intro _; rfl
  | cons a t ih =>
      intro h
      have ha : a.zone_type = none := h a (by simp)
      have ht := ih (fun z hz => h z (by simp [hz]))
      rw [typedCount_cons, ha]
      simpa using ht

theorem getD_set_ne (zs : List Zone) :
    ∀ (i j : Nat) (a : Zone), j ≠ i →
      (zs.set i a).getD j defaultZone = zs.getD j defaultZone := by
  induction zs with
  | nil => intro i j a _; rfl
  | cons z t ih =>
      intro i j a hne
      cases i with
      | zero =>
          cases j with
          | zero => exact absurd rfl hne
          | succ j => rfl
      | succ i =>
          cases j with
          | zero => rfl
          | succ j =>
              show (t.set i a).getD j defaultZone = t.getD j defaultZone
              exact ih i j a (fun h => hne (by rw [h]))

theorem typedCount_set_same (zs : List Zone) :
    ∀ (i : Nat) (a : Zone),
      a.zone_type.isSome = ((zs.getD i defaultZone).zone_type).isSome →
      typedCount (zs.set i a) = typedCount zs := by
  induction zs with
  | nil => intro i a _; rfl
  | cons z t ih =>
      intro i a h
      cases i with
      | zero =>
          show typedCount (a :: t) = typedCount (z :: t)
          rw [typedCount_cons, typedCount_cons]
          have hz : a.zone_type.isSome = z.zone_type.isSome := h
          rw [hz]
      | succ i =>
          show typedCount (z :: t.set i a) = typedCount (z :: t)
          rw [typedCount_cons, typedCount_cons, ih i a h]

theorem typedCount_set_typed (zs : List Zone) :
    ∀ (i : Nat) (a : Zone), i < zs.length →
      ((zs.getD i defaultZone).zone_type) = none →
      a.zone_type.isSome = true →
      typedCount (zs.set i a) = typedCount zs + 1 := by
  induction zs with
  | nil => intro i a h _ _; cases h
  | cons z t ih =>
      intro i a hi hn ha
      cases i with
      | zero =>
          show typedCount (a :: t) = typedCount (z :: t) + 1
          rw [typedCount_cons, typedCount_cons, ha]
          have hz : z.zone_type = none := hn
          rw [hz]
          simp [Nat.add_comm]
      | succ i =>
          show typedCount (z :: t.set i a) = typedCount (z :: t) + 1
          rw [typedCount_cons, typedCount_cons,
            ih i a (Nat.lt_of_succ_lt_succ hi) hn ha]
          omega

theorem typeZoneStep_unfold (typer : ZoneTyper) (finder : CountryFinder)
    (cc : Option String) (incl : List (List ZoneIndex)) (i : Nat)
    (zs : List Zone) (st : CosmogonyStats) :
    typeZoneStep typer finder cc incl i (zs, st)
      = (match get_country_code finder (zs.getD i defaultZone) cc with
        | none =>
            (zs, { st with zone_without_country := st.zone_without_country + 1 })
        | some country =>
            match get_zone_type typer (zs.getD i defaultZone) country
                (incl.getD i []) zs with
            | Except.ok t =>
                (zs.set i { zs.getD i defaultZone with zone_type := some t }, st)
            | Except.error (ZoneTyperError.invalidCountry c) =>
                (zs, { st with zone_with_unkwown_country_rules :=
                          incrKey c st.zone_with_unkwown_country_rules })
            | Except.error (ZoneTyperError.unkownLevel lvl c) =>
                (zs, { st with unhandled_admin_level :=
                          bumpLevel c (lvl.getD 0) st.unhandled_admin_level })) := rfl

theorem typeZoneStep_count (typer : ZoneTyper) (finder : CountryFinder)
    (cc : Option String) (incl : List (List ZoneIndex)) (i : Nat)
    (zs : List Zone) (st : CosmogonyStats)
    (hi : i < zs.length)
    (hn : ((zs.getD i defaultZone).zone_type) = none) :
    typedCount (typeZoneStep typer finder cc incl i (zs, st)).1
        + totalFailStats (typeZoneStep typer finder cc incl i (zs, st)).2
      = typedCount zs + totalFailStats st + 1
    ∧ (typeZoneStep typer finder cc incl i (zs, st)).1.length = zs.length
    ∧ ∀ j, j ≠ i →
        (typeZoneStep typer finder cc incl i (zs, st)).1.getD j defaultZone
          = zs.getD j defaultZone := by
  rw [typeZoneStep_unfold]
  cases hgc : get_country_code finder (zs.getD i defaultZone) cc with
  | none =>
      refine ⟨?_, rfl, fun j _ => rfl⟩
      simp only [totalFailStats]
      omega
  | some country =>
      dsimp only
      cases hgt : get_zone_type typer (zs.getD i defaultZone) country
          (incl.getD i []) zs with
      | ok t =>
          refine ⟨?_, List.length_set zs i _, fun j hj => getD_set_ne zs i j _ hj⟩
          have h1 : typedCount
              (zs.set i { zs.getD i defaultZone with zone_type := some t })
              = typedCount zs + 1 :=
            typedCount_set_typed zs i _ hi hn rfl
          simp only [h1]
          omega
      | error e =>
          cases e with
          | invalidCountry c =>
              refine ⟨?_, rfl, fun j _ => rfl⟩
              simp only [totalFailStats]
              have := sumCounts_incrKey c st.zone_with_unkwown_country_rules
              omega
          | unkownLevel lvl c =>
              refine ⟨?_, rfl, fun j _ => rfl⟩
              simp only [totalFailStats]
              have := sumCounts2_bumpLevel c (lvl.getD 0) st.unhandled_admin_level
              omega

theorem typeZonesFrom_count (typer : ZoneTyper) (finder : CountryFinder)
    (cc : Option String) (incl : List (List ZoneIndex)) :
    ∀ (L : List Nat) (zs : List Zone) (st : CosmogonyStats),
      (∀ i ∈ L, i < zs.length ∧ ((zs.getD i defaultZone).zone_type) = none) →
      L.Nodup →
      typedCount (typeZonesFrom typer finder cc incl L (zs, st)).1
          + totalFailStats (typeZonesFrom typer finder cc incl L (zs, st)).2
        = typedCount zs + totalFailStats st + L.length
      ∧ (typeZonesFrom typer finder cc incl L (zs, st)).1.length = zs.length := by
  intro L
  induction L with
  | nil => intro zs st _ _; exact ⟨by simp [typeZonesFrom], rfl⟩
  | cons i rest ih =>
      intro zs st hmem hnd
      obtain ⟨hi, hn⟩ := hmem i (by simp)
      have hstep := typeZoneStep_count typer finder cc incl i zs st hi hn
      rcases hpair : typeZoneStep typer finder cc incl i (zs, st) with ⟨zs1, st1⟩
      rw [hpair] at hstep
      dsimp only at hstep
      obtain ⟨hcnt, hlen, hoth⟩ := hstep
      have hnd1 : rest.Nodup := (List.nodup_cons.mp hnd).2
      have hni : i ∉ rest := (List.nodup_cons.mp hnd).1
      have hmem1 : ∀ j ∈ rest,
          j < zs1.length ∧ ((zs1.getD j defaultZone).zone_type) = none := by
        intro j hj
        have hji : j ≠ i := fun h => hni (h ▸ hj)
        obtain ⟨hjl, hjn⟩ := hmem j (by simp [hj])
        refine ⟨by omega, ?_⟩
        rw [hoth j hji]
        exact hjn
      have hrec := ih zs1 st1 hmem1 hnd1
      have heq : typeZonesFrom typer finder cc incl (i :: rest) (zs, st)
          = typeZonesFrom typer finder cc incl rest (zs1, st1) := by
        show typeZonesFrom typer finder cc incl rest
            (typeZoneStep typer finder cc incl i (zs, st))
          = typeZonesFrom typer finder cc incl rest (zs1, st1)
        rw [hpair]
      rw [heq]
      obtain ⟨hrc, hrl⟩ := hrec
      constructor
      · rw [hrc]
        simp only [List.length_cons]
        omega
      · omega

theorem ingestNoGeom_cons_admin (rel : OsmRelation) (rest : List OsmObj)
    (acc : List Zone) (ha : is_admin (OsmObj.relation rel) = true) :
    ingestNoGeom (OsmObj.relation rel :: rest) acc
      = ingestNoGeom rest
          (acc ++ [(from_osm rel (ZoneIndex.mk acc.length)).getD defaultZone]) := by
  simp [ingestNoGeom, ha, from_osm]

theorem ingestNoGeom_cons_nonadmin (obj : OsmObj) (rest : List OsmObj)
    (acc : List Zone) (ha : is_admin obj = false) :
    ingestNoGeom (obj :: rest) acc = ingestNoGeom rest acc := by
  simp [ingestNoGeom, ha]

theorem ingestGeom_cons_admin_none (geom : OsmRelation → Option Boundary)
    (rel : OsmRelation) (rest : List OsmObj) (acc : List Zone)
    (ha : is_admin (OsmObj.relation rel) = true) (hg : geom rel = none) :
    ingestGeom geom (OsmObj.relation rel :: rest) acc
      = ingestGeom geom rest acc := by
  simp [ingestGeom, ha, from_osm_with_geom, from_osm, hg]

theorem ingestGeom_cons_admin_some (geom : OsmRelation → Option Boundary)
    (rel : OsmRelation) (rest : List OsmObj) (acc : List Zone) (b : Boundary)
    (ha : is_admin (OsmObj.relation rel) = true) (hg : geom rel = some b) :
    ingestGeom geom (OsmObj.relation rel :: rest) acc
      = ingestGeom geom rest
          (acc ++ [{ (from_osm rel (ZoneIndex.mk acc.length)).getD defaultZone with
                      boundary := some b }]) := by
  simp [ingestGeom, ha, from_osm_with_geom, from_osm, hg]

theorem ingestGeom_cons_nonadmin (geom : OsmRelation → Option Boundary)
    (obj : OsmObj) (rest : List OsmObj) (acc : List Zone)
    (ha : is_admin obj = false) :
    ingestGeom geom (obj :: rest) acc = ingestGeom geom rest acc := by
  simp [ingestGeom, ha]

theorem ingestNoGeom_untyped :
    ∀ (l : List OsmObj) (acc : List Zone),
      (∀ z ∈ acc, z.zone_type = none) →
      ∀ z ∈ ingestNoGeom l acc, z.zone_type = none := by
  intro l
  induction l with
  | nil => intro acc hacc z hz; exact hacc z hz
  | cons obj rest ih =>
      intro acc hacc z hz
      by_cases ha : is_admin obj
      · cases obj with
        | node n => simp [is_admin] at ha
        | way n => simp [is_admin] at ha
        | relation rel =>
            rw [ingestNoGeom_cons_admin rel rest acc ha] at hz
            refine ih _ ?_ z hz
            intro w hw
            rcases List.mem_append.mp hw with hw | hw
            · exact hacc w hw
            · have hw' : w = (from_osm rel (ZoneIndex.mk acc.length)).getD defaultZone := by
                simpa using hw
              rw [hw']
              simp [from_osm]
      · rw [ingestNoGeom_cons_nonadmin obj rest acc (by simpa using ha)] at hz
        exact ih _ hacc z hz

theorem ingestGeom_untyped (geom : OsmRelation → Option Boundary) :
    ∀ (l : List OsmObj) (acc : List Zone),
      (∀ z ∈ acc, z.zone_type = none) →
      ∀ z ∈ ingestGeom geom l acc, z.zone_type = none := by
  intro l
  induction l with
  | nil => intro acc hacc z hz; exact hacc z hz
  | cons obj rest ih =>
      intro acc hacc z hz
      by_cases ha : is_admin obj
      · cases obj with
        | node n => simp [is_admin] at ha
        | way n => simp [is_admin] at ha
        | relation rel =>
            cases hg : geom rel with
            | none =>
                rw [ingestGeom_cons_admin_none geom rel rest acc ha hg] at hz
                exact ih _ hacc z hz
            | some b =>
                rw [ingestGeom_cons_admin_some geom rel rest acc b ha hg] at hz
                refine ih _ ?_ z hz
                intro w hw
                rcases List.mem_append.mp hw with hw | hw
                · exact hacc w hw
                · have hw' : w = { (from_osm rel (ZoneIndex.mk acc.length)).getD
                      defaultZone with boundary := some b } := by
                    simpa using hw
                  rw [hw']
                  simp [from_osm]
      · rw [ingestGeom_cons_nonadmin geom obj rest acc (by simpa using ha)] at hz
        exact ih _ hacc z hz

theorem ingestGeom_boundarySome (geom : OsmRelation → Option Boundary) :
    ∀ (l : List OsmObj) (acc : List Zone),
      (∀ z ∈ acc, z.boundary.isSome = true) →
      ∀ z ∈ ingestGeom geom l acc, z.boundary.isSome = true := by
  intro l
  induction l with
  | nil => intro acc hacc z hz; exact hacc z hz
  | cons obj rest ih =>
      intro acc hacc z hz
      by_cases ha : is_admin obj
      · cases obj with
        | node n => simp [is_admin] at ha
        | way n => simp [is_admin] at ha
        | relation rel =>
            cases hg : geom rel with
            | none =>
                rw [ingestGeom_cons_admin_none geom rel rest acc ha hg] at hz
                exact ih _ hacc z hz
            | some b =>
                rw [ingestGeom_cons_admin_some geom rel rest acc b ha hg] at hz
                refine ih _ ?_ z hz
                intro w hw
                rcases List.mem_append.mp hw with hw | hw
                · exact hacc w hw
                · have hw' : w = { (from_osm rel (ZoneIndex.mk acc.length)).getD
                      defaultZone with boundary := some b } := by
                    simpa using hw
                  rw [hw']
                  rfl
      · rw [ingestGeom_cons_nonadmin geom obj rest acc (by simpa using ha)] at hz
        exact ih _ hacc z hz

theorem ingestNoGeom_mem_src :
    ∀ (l : List OsmObj) (acc : List Zone) (z : Zone),
      z ∈ ingestNoGeom l acc →
      z ∈ acc ∨ ∃ rel idx, OsmObj.relation rel ∈ l
        ∧ is_admin (OsmObj.relation rel) = true
        ∧ from_osm rel idx = some z := by
  intro l
  induction l with
  | nil => intro acc z hz; exact Or.inl hz
  | cons obj rest ih =>
      intro acc z hz
      by_cases ha : is_admin obj
      · cases obj with
        | node n => simp [is_admin] at ha
        | way n => simp [is_admin] at ha
        | relation rel =>
            rw [ingestNoGeom_cons_admin rel rest acc ha] at hz
            rcases ih _ z hz with hin | ⟨rel', idx', hrel', ha', hfrom'⟩
            · rcases List.mem_append.mp hin with hin | hone
              · exact Or.inl hin
              · have hw : z = (from_osm rel (ZoneIndex.mk acc.length)).getD
                    defaultZone := by
                  simpa using hone
                refine Or.inr ⟨rel, ZoneIndex.mk acc.length, by simp, ha, ?_⟩
                rw [hw]
                simp [from_osm]
            · exact Or.inr ⟨rel', idx', by simp [hrel'], ha', hfrom'⟩
      · rw [ingestNoGeom_cons_nonadmin obj rest acc (by simpa using ha)] at hz
        rcases ih _ z hz with hin | ⟨rel', idx', hrel', ha', hfrom'⟩
        · exact Or.inl hin
        · exact Or.inr ⟨rel', idx', by simp [hrel'], ha', hfrom'⟩

theorem ingestGeom_mem_src (geom : OsmRelation → Option Boundary) :
    ∀ (l : List OsmObj) (acc : List Zone) (z : Zone),
      z ∈ ingestGeom geom l acc →
      z ∈ acc ∨ ∃ rel idx, OsmObj.relation rel ∈ l
        ∧ is_admin (OsmObj.relation rel) = true
        ∧ from_osm_with_geom geom rel idx = some z := by
  intro l
  induction l with
  | nil => intro acc z hz; exact Or.inl hz
  | cons obj rest ih =>
      intro acc z hz
      by_cases ha : is_admin obj
      · cases obj with
        | node n => simp [is_admin] at ha
        | way n => simp [is_admin] at ha
        | relation rel =>
            cases hg : geom rel with
            | none =>
                rw [ingestGeom_cons_admin_none geom rel rest acc ha hg] at hz
                rcases ih _ z hz with hin | ⟨rel', idx', hrel', ha', hfrom'⟩
                · exact Or.inl hin
                · exact Or.inr ⟨rel', idx', by simp [hrel'], ha', hfrom'⟩
            | some b =>
                rw [ingestGeom_cons_admin_some geom rel rest acc b ha hg] at hz
                rcases ih _ z hz with hin | ⟨rel', idx', hrel', ha', hfrom'⟩
                · rcases List.mem_append.mp hin with hin | hone
                  · exact Or.inl hin
                  · have hw : z = { (from_osm rel (ZoneIndex.mk acc.length)).getD
                        defaultZone with boundary := some b } := by
                      simpa using hone
                    refine Or.inr ⟨rel, ZoneIndex.mk acc.length, by simp, ha, ?_⟩
                    rw [hw]
                    simp [from_osm_with_geom, from_osm, hg]
                · exact Or.inr ⟨rel', idx', by simp [hrel'], ha', hfrom'⟩
      · rw [ingestGeom_cons_nonadmin geom obj rest acc (by simpa using ha)] at hz
        rcases ih _ z hz with hin | ⟨rel', idx', hrel', ha', hfrom'⟩
        · exact Or.inl hin
        · exact Or.inr ⟨rel', idx', by simp [hrel'], ha', hfrom'⟩

theorem ingestNoGeom_mono :
    ∀ (l : List OsmObj) (acc : List Zone) (z : Zone),
      z ∈ acc → z ∈ ingestNoGeom l acc := by
  intro l
  induction l with
  | nil => intro acc z hz; exact hz
  | cons obj rest ih =>
      intro acc z hz
      by_cases ha : is_admin obj
      · cases obj with
        | node n => simp [is_admin] at ha
        | way n => simp [is_admin] at ha
        | relation rel =>
            rw [ingestNoGeom_cons_admin rel rest acc ha]
            exact ih _ z (List.mem_append.mpr (Or.inl hz))
      · rw [ingestNoGeom_cons_nonadmin obj rest acc (by simpa using ha)]
        exact ih _ z hz

theorem ingestNoGeom_pushes_admin :
    ∀ (l : List OsmObj) (acc : List Zone) (rel : OsmRelation),
      OsmObj.relation rel ∈ l → is_admin (OsmObj.relation rel) = true →
      ∃ z, z ∈ ingestNoGeom l acc ∧ z.osm_id = rel.id ∧ z.boundary = none := by
  intro l
  induction l with
  | nil => intro acc rel h _; cases h
  | cons obj rest ih =>
      intro acc rel hmem ha
      rcases List.mem_cons.mp hmem with heq | hmem'
      · subst heq
        rw [ingestNoGeom_cons_admin rel rest acc ha]
        refine ⟨(from_osm rel (ZoneIndex.mk acc.length)).getD defaultZone,
          ingestNoGeom_mono rest _ _ (List.mem_append.mpr (Or.inr (by simp))),
          ?_, ?_⟩
        · simp [from_osm]
        · simp [from_osm]
      · by_cases hb : is_admin obj
        · cases obj with
          | node n => simp [is_admin] at hb
          | way n => simp [is_admin] at hb
          | relation rel' =>
              rw [ingestNoGeom_cons_admin rel' rest acc hb]
              exact ih _ rel hmem' ha
        · rw [ingestNoGeom_cons_nonadmin obj rest acc (by simpa using hb)]
          exact ih _ rel hmem' ha

theorem addChildLink_preserves (c : ZoneIndex) (i : Nat) (zs : List Zone) :
    (addChildLink c i zs).length = zs.length
    ∧ typedCount (addChildLink c i zs) = typedCount zs := by
  constructor
  · exact List.length_set zs c.index _
  · exact typedCount_set_same zs c.index _ rfl

theorem hierStep_preserves (incl : List (List ZoneIndex)) (i : Nat)
    (zs : List Zone) :
    (hierStep incl i zs).length = zs.length
    ∧ typedCount (hierStep incl i zs) = typedCount zs := by
  unfold hierStep
  cases hcp : chooseParent zs i (incl.getD i []) with
  | none => exact ⟨rfl, rfl⟩
  | some c =>
      have h1 : (zs.set i { zs.getD i defaultZone with parent := some c }).length
          = zs.length := List.length_set zs i _
      have h2 : typedCount (zs.set i { zs.getD i defaultZone with parent := some c })
          = typedCount zs := typedCount_set_same zs i _ rfl
      have h3 := addChildLink_preserves c i
        (zs.set i { zs.getD i defaultZone with parent := some c })
      exact ⟨by rw [h3.1, h1], by rw [h3.2, h2]⟩

theorem labelStep_preserves (i : Nat) (zs : List Zone) :
    (labelStep i zs).length = zs.length
    ∧ typedCount (labelStep i zs) = typedCount zs := by
  constructor
  · exact List.length_set zs i _
  · exact typedCount_set_same zs i _ rfl

theorem foldl_preserves_counts (f : List Zone → Nat → List Zone)
    (hf : ∀ zs i, (f zs i).length = zs.length ∧ typedCount (f zs i) = typedCount zs) :
    ∀ (L : List Nat) (zs : List Zone),
      (L.foldl f zs).length = zs.length ∧ typedCount (L.foldl f zs) = typedCount zs := by
  intro L
  induction L with
  | nil => intro zs; exact ⟨rfl, rfl⟩
  | cons i rest ih =>
      intro zs
      have h1 := hf zs i
      have h2 := ih (f zs i)
      exact ⟨by rw [List.foldl_cons, h2.1, h1.1],
             by rw [List.foldl_cons, h2.2, h1.2]⟩

theorem build_hierarchy_preserves (zs : List Zone)
    (incl : List (List ZoneIndex)) :
    (build_hierarchy zs incl).length = zs.length
    ∧ typedCount (build_hierarchy zs incl) = typedCount zs :=
  foldl_preserves_counts (fun zs i => hierStep incl i zs)
    (fun zs i => hierStep_preserves incl i zs) (List.range zs.length) zs

theorem compute_labels_preserves (zs : List Zone) :
    (compute_labels zs).length = zs.length
    ∧ typedCount (compute_labels zs) = typedCount zs :=
  foldl_preserves_counts (fun zs i => labelStep i zs)
    (fun zs i => labelStep_preserves i zs) (List.range zs.length) zs

theorem clean_untagged_length (zs : List Zone) :
    (clean_untagged_zones zs).length = typedCount zs := rfl

theorem compute_preserves_counters (st : CosmogonyStats) (zs : List Zone) :
    (st.compute zs).zone_without_country = st.zone_without_country
    ∧ (st.compute zs).zone_with_unkwown_country_rules
        = st.zone_with_unkwown_country_rules
    ∧ (st.compute zs).unhandled_admin_level = st.unhandled_admin_level :=
  ⟨rfl, rfl, rfl⟩

theorem type_zones_ok_elim (zones : List Zone) (stats : CosmogonyStats)
    (typer : ZoneTyper) (cc : Option String) (incl : List (List ZoneIndex))
    (zs1 : List Zone) (st1 : CosmogonyStats)
    (h : type_zones zones stats typer cc incl = Except.ok (zs1, st1)) :
    typeZonesFrom typer (countryFinderOfZones zones) cc incl
        (List.range zones.length) (zones, stats) = (zs1, st1) := by
  unfold type_zones at h
  by_cases hc : (cc.isNone && (countryFinderOfZones zones).isEmptyB) = true
  · rw [if_pos hc] at h
    cases h
  · rw [if_neg hc] at h
    exact Except.ok.inj h

theorem create_ontology_ok_elim (zones : List Zone) (stats : CosmogonyStats)
    (typer : ZoneTyper) (cc : Option String) (zs : List Zone)
    (st : CosmogonyStats)
    (h : create_ontology zones stats typer cc = Except.ok (zs, st)) :
    ∃ zs1, type_zones zones stats typer cc (find_inclusions zones)
        = Except.ok (zs1, st)
      ∧ zs = clean_untagged_zones
          (compute_labels (build_hierarchy zs1 (find_inclusions zones))) := by
  unfold create_ontology at h
  cases htz : type_zones zones stats typer cc (find_inclusions zones) with
  | error e => rw [htz] at h; cases h
  | ok p =>
      obtain ⟨zs1, st1⟩ := p
      rw [htz] at h
      have h' := Except.ok.inj h
      injection h' with hz hst
      subst hst
      exact ⟨zs1, rfl, hz.symm⟩

theorem build_cosmogony_ok_elim (objs : List OsmObj)
    (geom : OsmRelation → Option Boundary) (fname : String) (wg : Bool)
    (typer : ZoneTyper) (cc : Option String) (c : Cosmogony)
    (h : build_cosmogony objs geom fname wg typer cc = Except.ok c) :
    ∃ st, create_ontology (ingested objs geom wg).1 (ingested objs geom wg).2
        typer cc = Except.ok (c.zones, st)
      ∧ c.meta.stats = st.compute c.zones := by
  unfold build_cosmogony at h
  cases hco : create_ontology (ingested objs geom wg).1 (ingested objs geom wg).2
      typer cc with
  | error e => rw [hco] at h; cases h
  | ok p =>
      obtain ⟨zs, st⟩ := p
      rw [hco] at h
      have h' := Except.ok.inj h
      subst h'
      exact ⟨st, rfl, rfl⟩

theorem getD_mem_of_lt (zs : List Zone) :
    ∀ i, i < zs.length → zs.getD i defaultZone ∈ zs := by
  induction zs with
  | nil => intro i h; cases h
  | cons a t ih =>
      intro i h
      cases i with
      | zero => exact List.mem_cons_self _ _
      | succ i => exact List.mem_cons_of_mem _ (ih i (Nat.lt_of_succ_lt_succ h))

/-- C1: every zone in the final Cosmogony returned by build_cosmogony has a
resolved type; no zone whose type never resolved survives pruning. -/
theorem c1_final_zones_typed (objs : List OsmObj)
    (geom : OsmRelation → Option Boundary) (fname : String) (wg : Bool)
    (typer : ZoneTyper) (cc : Option String) (c : Cosmogony)
    (h : build_cosmogony objs geom fname wg typer cc = Except.ok c) :
    ∀ z ∈ c.zones, z.zone_type.isSome = true := by
  obtain ⟨st, hco, _⟩ := build_cosmogony_ok_elim objs geom fname wg typer cc c h
  obtain ⟨zs1, _, hz⟩ := create_ontology_ok_elim _ _ _ _ _ _ hco
  intro z hzmem
  rw [hz] at hzmem
  simp only [clean_untagged_zones] at hzmem
  exact (List.mem_filter.mp hzmem).2

/-- Witness for C1 at a concrete run: the surviving zone of the one-relation
extract has a resolved type. -/
theorem c1_witness :
    ((c1res.zones.getD 0 defaultZone).zone_type).isSome = true :=
  c1_final_zones_typed [OsmObj.relation relAdm] gnone "f" false typerZZ
    (some "ZZ") c1res (by rfl) (c1res.zones.getD 0 defaultZone) (by decide)

/-- C2: type_zones fails with an error exactly when no explicit country code
is supplied and the country index built over the zone collection is empty;
the error is returned before any zone is classified, and otherwise
classification proceeds and the call returns Ok. -/
theorem c2_no_country_context (zones : List Zone) (stats : CosmogonyStats)
    (typer : ZoneTyper) (cc : Option String) (incl : List (List ZoneIndex)) :
    (type_zones zones stats typer cc incl).isOk = false
      ↔ (cc = none ∧ (countryFinderOfZones zones).isEmptyB = true) := by
  unfold type_zones
  cases cc with
  | none =>
      cases h : (countryFinderOfZones zones).isEmptyB with
      | true => simp [h, Except.isOk, Except.toBool]
      | false => simp [h, Except.isOk, Except.toBool]
  | some c => simp [Except.isOk, Except.toBool]

/-- Witness for C2 at a concrete input: with an explicit country code the
call does not fail. -/
theorem c2_witness :
    (type_zones [] {} typerZZ (some "ZZ") []).isOk = true := by
  have h := c2_no_country_context [] {} typerZZ (some "ZZ") []
  cases hb : (type_zones [] {} typerZZ (some "ZZ") []).isOk with
  | false => exact absurd (h.mp hb).1 (by decide)
  | true => rfl

/-- C3: per-zone classification failures never abort the run — whenever the
no-country-context guard passes, type_zones returns Ok of the full loop; the
loop processes the remaining indices after each step; and a step whose
classification returns InvalidCountry or UnkownLevel leaves the zone list
(hence the zone type) unchanged and increments exactly the corresponding
statistics counter keyed by country, and by level for UnkownLevel. -/
theorem c3_classification_errors_absorbed :
    (∀ (zones : List Zone) (stats : CosmogonyStats) (typer : ZoneTyper)
        (cc : Option String) (incl : List (List ZoneIndex)),
        (cc.isNone && (countryFinderOfZones zones).isEmptyB) = false →
        type_zones zones stats typer cc incl
          = Except.ok (typeZonesFrom typer (countryFinderOfZones zones) cc incl
              (List.range zones.length) (zones, stats)))
    ∧ (∀ (typer : ZoneTyper) (finder : CountryFinder) (cc : Option String)
        (incl : List (List ZoneIndex)) (i : Nat) (rest : List Nat)
        (s : List Zone × CosmogonyStats),
        typeZonesFrom typer finder cc incl (i :: rest) s
          = typeZonesFrom typer finder cc incl rest
              (typeZoneStep typer finder cc incl i s))
    ∧ (∀ (typer : ZoneTyper) (finder : CountryFinder) (cc : Option String)
        (incl : List (List ZoneIndex)) (i : Nat) (zs : List Zone)
        (st : CosmogonyStats) (country c : String),
        get_country_code finder (zs.getD i defaultZone) cc = some country →
        get_zone_type typer (zs.getD i defaultZone) country (incl.getD i []) zs
          = Except.error (ZoneTyperError.invalidCountry c) →
        typeZoneStep typer finder cc incl i (zs, st)
          = (zs, { st with zone_with_unkwown_country_rules :=
                    incrKey c st.zone_with_unkwown_country_rules }))
    ∧ (∀ (typer : ZoneTyper) (finder : CountryFinder) (cc : Option String)
        (incl : List (List ZoneIndex)) (i : Nat) (zs : List Zone)
        (st : CosmogonyStats) (country c : String) (lvl : Option Nat),
        get_country_code finder (zs.getD i defaultZone) cc = some country →
        get_zone_type typer (zs.getD i defaultZone) country (incl.getD i []) zs
          = Except.error (ZoneTyperError.unkownLevel lvl c) →
        typeZoneStep typer finder cc incl i (zs, st)
          = (zs, { st with unhandled_admin_level :=
                    bumpLevel c (lvl.getD 0) st.unhandled_admin_level })) := by
  refine ⟨?_, ?_, ?_, ?_⟩
  · intro zones stats typer cc incl h
    simp [type_zones, h]
  · intro typer finder cc incl i rest s
    rfl
  · intro typer finder cc incl i zs st country c hgc hgt
    rw [typeZoneStep_unfold, hgc]
    dsimp only
    rw [hgt]
  · intro typer finder cc incl i zs st country c lvl hgc hgt
    rw [typeZoneStep_unfold, hgc]
    dsimp only
    rw [hgt]

/-- Witness for C3 at a concrete input: with an empty rule table and an
explicit country QQ the run returns Ok and the step counts the
InvalidCountry failure while leaving the zone untouched. -/
theorem c3_witness :
    type_zones [defaultZone] {} typerEmpty (some "QQ") [[]]
        = Except.ok (typeZonesFrom typerEmpty (countryFinderOfZones [defaultZone])
            (some "QQ") [[]] (List.range 1) ([defaultZone], {}))
    ∧ typeZoneStep typerEmpty (countryFinderOfZones [defaultZone]) (some "QQ")
        [[]] 0 ([defaultZone], {})
        = ([defaultZone], { zone_with_unkwown_country_rules := incrKey "QQ" [] }) :=
  ⟨c3_classification_errors_absorbed.1 [defaultZone] {} typerEmpty (some "QQ")
      [[]] (by decide),
   c3_classification_errors_absorbed.2.2.1 typerEmpty
      (countryFinderOfZones [defaultZone]) (some "QQ") [[]] 0 [defaultZone] {}
      "QQ" "QQ" (by rfl) (by rfl)⟩

/-- C4: on an extract with one boundary-tagged relation whose admin_level
tag does not parse, under explicit country ZZ whose rule table has no
fallback rule, classification returns UnkownLevel(none, ZZ), the zone is
pruned from the result, and the statistics counter for ZZ at level 0 is
incremented. -/
theorem c4_scenario_missing_level :
    ((build_cosmogony objs4 gnone "f" false typer4 (some "ZZ")).toOption.map
        (fun c => (c.zones, c.meta.stats.unhandled_admin_level)))
      = some ([], [("ZZ", [(0, 1)])])
    ∧ get_zone_type typer4 zone4 "ZZ" [] [zone4]
        = Except.error (ZoneTyperError.unkownLevel none "ZZ") := by
  constructor
  · decide
  · rfl

/-- C5 counterexample: in the concrete geometry-mode run c5run, one zone is
pruned while its two hierarchy-linked companions survive; the surviving
level-2 zone (final position 0, external id 11) still stores child index 2,
which is out of range of the two-element final list, and the surviving
level-8 zone (final position 1, external id 12) still stores parent index 1,
which now names its own position instead of its parent — the stored
ZoneIndex values are not valid within the post-prune zone list. -/
theorem c5_counterexample :
    (c5run.toOption.map (fun c =>
        (c.zones.length,
         c.zones.map (fun z => z.osm_id),
         (c.zones.getD 0 defaultZone).children,
         (c.zones.getD 1 defaultZone).parent)))
      = some (2, [11, 12], [ZoneIndex.mk 2], some (ZoneIndex.mk 1)) := by
  decide

/-- C5 (amended): parent and child indices refer to positions in the
pre-prune zone list; clean_untagged_zones does not re-derive them, so the
stored indices coincide with final positions only when pruning removes
nothing — and indeed pruning is the identity when every zone type is set. -/
theorem c5_amended_prune_identity (zs : List Zone)
    (h : ∀ z ∈ zs, z.zone_type.isSome = true) :
    clean_untagged_zones zs = zs := by
  induction zs with
  | nil => rfl
  | cons a t ih =>
      have ha := h a (by simp)
      have ht := ih (fun z hz => h z (by simp [hz]))
      simp only [clean_untagged_zones] at ht ⊢
      rw [List.filter_cons]
      simp [ha, ht]

/-- Witness for the amended C5 at a concrete input: pruning a fully typed
one-zone list changes nothing. -/
theorem c5_amended_witness : clean_untagged_zones [zoneTyped] = [zoneTyped] :=
  c5_amended_prune_identity [zoneTyped] (by decide)

/-- C7: when build_cosmogony completes without a fatal error, the ingested
zone count equals the surviving zone count plus the zones dropped for a
missing country plus the per-country unknown-country-rule counters plus the
per-country per-level unhandled-admin-level counters — the statistics fully
account for every pruned zone. -/
theorem c7_stats_account_for_pruned (objs : List OsmObj)
    (geom : OsmRelation → Option Boundary) (fname : String) (wg : Bool)
    (typer : ZoneTyper) (cc : Option String) (c : Cosmogony)
    (h : build_cosmogony objs geom fname wg typer cc = Except.ok c) :
    (ingested objs geom wg).1.length
      = c.zones.length + c.meta.stats.zone_without_country
        + sumCounts c.meta.stats.zone_with_unkwown_country_rules
        + sumCounts2 c.meta.stats.unhandled_admin_level := by
  obtain ⟨st, hco, hstats⟩ := build_cosmogony_ok_elim objs geom fname wg typer cc c h
  obtain ⟨zs1, htz, hz⟩ := create_ontology_ok_elim _ _ _ _ _ _ hco
  have hfrom := type_zones_ok_elim _ _ _ _ _ _ _ htz
  have hst0 : (ingested objs geom wg).2 = ({} : CosmogonyStats) := by
    cases wg <;> rfl
  have huntyped : ∀ z ∈ (ingested objs geom wg).1, z.zone_type = none := by
    cases wg
    · exact fun z hz => ingestNoGeom_untyped objs [] (fun w hw => by cases hw) z hz
    · exact fun z hz => ingestGeom_untyped geom objs [] (fun w hw => by cases hw) z hz
  have hloop := typeZonesFrom_count typer
    (countryFinderOfZones (ingested objs geom wg).1) cc
    (find_inclusions (ingested objs geom wg).1)
    (List.range (ingested objs geom wg).1.length)
    (ingested objs geom wg).1 (ingested objs geom wg).2
    (fun i hi =>
      ⟨List.mem_range.mp hi,
       huntyped _ (getD_mem_of_lt _ i (List.mem_range.mp hi))⟩)
    (List.nodup_range _)
  rw [hfrom] at hloop
  dsimp only at hloop
  obtain ⟨hcnt, _⟩ := hloop
  have h0 : typedCount (ingested objs geom wg).1 = 0 :=
    typedCount_eq_zero _ huntyped
  have h1 : totalFailStats (ingested objs geom wg).2 = 0 := by
    rw [hst0]
    rfl
  have h2 : c.zones.length = typedCount zs1 := by
    rw [hz, clean_untagged_length, (compute_labels_preserves _).2,
      (build_hierarchy_preserves _ _).2]
  have h3 : c.meta.stats.zone_without_country = st.zone_without_country := by
    rw [hstats]
    rfl
  have h4 : c.meta.stats.zone_with_unkwown_country_rules
      = st.zone_with_unkwown_country_rules := by
    rw [hstats]
    rfl
  have h5 : c.meta.stats.unhandled_admin_level = st.unhandled_admin_level := by
    rw [hstats]
    rfl
  rw [h2, h3, h4, h5]
  have hrange : (List.range (ingested objs geom wg).1.length).length
      = (ingested objs geom wg).1.length := List.length_range _
  simp only [totalFailStats] at hcnt h1
  omega

/-- Witness for C7 at a concrete run: one typed zone survives and the two
classification failures are accounted by the counters. -/
theorem c7_witness :
    (ingested objs7 gnone false).1.length
      = c7res.zones.length + c7res.meta.stats.zone_without_country
        + sumCounts c7res.meta.stats.zone_with_unkwown_country_rules
        + sumCounts2 c7res.meta.stats.unhandled_admin_level :=
  c7_stats_account_for_pruned objs7 gnone "f" false typerZZ (some "ZZ") c7res
    (by rfl)

/-- C8: build_cosmogony is deterministic — two runs on identical decoded
content, boundary oracle, file name, geometry flag, rule table and optional
country code produce identical labels and parent assignments. -/
theorem c8_full_run_deterministic (objsA objsB : List OsmObj)
    (geomA geomB : OsmRelation → Option Boundary) (fA fB : String)
    (wA wB : Bool) (tA tB : ZoneTyper) (ccA ccB : Option String)
    (ho : objsA = objsB) (hg : geomA = geomB) (hf : fA = fB) (hw : wA = wB)
    (ht : tA = tB) (hc : ccA = ccB) :
    (build_cosmogony objsA geomA fA wA tA ccA).map
        (fun c => c.zones.map (fun z => (z.label, z.parent)))
      = (build_cosmogony objsB geomB fB wB tB ccB).map
          (fun c => c.zones.map (fun z => (z.label, z.parent))) := by
  subst ho hg hf hw ht hc
  rfl

/-- Witness for C8 at a concrete pair of identical runs. -/
theorem c8_witness :
    (build_cosmogony objsMix gnone "f" false typerZZ (some "ZZ")).map
        (fun c => c.zones.map (fun z => (z.label, z.parent)))
      = (build_cosmogony objsMix gnone "f" false typerZZ (some "ZZ")).map
          (fun c => c.zones.map (fun z => (z.label, z.parent))) :=
  c8_full_run_deterministic objsMix objsMix gnone gnone "f" "f" false false
    typerZZ typerZZ (some "ZZ") (some "ZZ") rfl rfl rfl rfl rfl rfl

/-- C9: in both ingestion modes, every zone z of the zone collection is the
decode (from_osm_with_geom, respectively from_osm) of some OSM relation of
the extract carrying boundary=administrative and a present admin_level tag —
so nodes, ways and relations lacking either tag contribute no zone. -/
theorem c9_only_admin_relations_ingested :
    (∀ (geom : OsmRelation → Option Boundary) (objs : List OsmObj) (z : Zone),
        z ∈ (get_zones_and_stats geom objs).1 →
        ∃ rel idx, OsmObj.relation rel ∈ objs
          ∧ is_admin (OsmObj.relation rel) = true
          ∧ from_osm_with_geom geom rel idx = some z)
    ∧ (∀ (objs : List OsmObj) (z : Zone),
        z ∈ (get_zones_and_stats_without_geom objs).1 →
        ∃ rel idx, OsmObj.relation rel ∈ objs
          ∧ is_admin (OsmObj.relation rel) = true
          ∧ from_osm rel idx = some z) := by
  constructor
  · intro geom objs z hz
    rcases ingestGeom_mem_src geom objs [] z hz with hin | hsrc
    · cases hin
    · exact hsrc
  · intro objs z hz
    rcases ingestNoGeom_mem_src objs [] z hz with hin | hsrc
    · cases hin
    · exact hsrc

/-- Witness for C9 at a concrete extract holding a node, a way and one admin
relation: the single ingested zone is the decode of that admin relation. -/
theorem c9_witness :
    ∃ rel idx, OsmObj.relation rel ∈ objsMix
      ∧ is_admin (OsmObj.relation rel) = true
      ∧ from_osm rel idx
          = some ((get_zones_and_stats_without_geom objsMix).1.getD 0 defaultZone) :=
  c9_only_admin_relations_ingested.2 objsMix
    ((get_zones_and_stats_without_geom objsMix).1.getD 0 defaultZone) (by decide)

/-- C10: in geometry mode every ingested zone carries a boundary (zones whose
boundary assembly produced nothing are dropped before any later stage), while
in lightweight mode an admin relation is retained as a zone with no
boundary. -/
theorem c10_boundary_mode_filter :
    (∀ (geom : OsmRelation → Option Boundary) (objs : List OsmObj) (z : Zone),
        z ∈ (get_zones_and_stats geom objs).1 → z.boundary.isSome = true)
    ∧ (∀ (objs : List OsmObj) (rel : OsmRelation),
        OsmObj.relation rel ∈ objs → is_admin (OsmObj.relation rel) = true →
        ∃ z, z ∈ (get_zones_and_stats_without_geom objs).1
          ∧ z.osm_id = rel.id ∧ z.boundary = none) := by
  constructor
  · intro geom objs z hz
    exact ingestGeom_boundarySome geom objs [] (fun w hw => by cases hw) z hz
  · intro objs rel hmem ha
    exact ingestNoGeom_pushes_admin objs [] rel hmem ha

/-- Witness for C10 at a concrete extract: the geometry-mode zone carries a
boundary, and the lightweight run retains the admin relation with none. -/
theorem c10_witness :
    (((get_zones_and_stats geomAll objsMix).1.getD 0 defaultZone).boundary).isSome
        = true
    ∧ ∃ z, z ∈ (get_zones_and_stats_without_geom objsMix).1
        ∧ z.osm_id = relAdm.id ∧ z.boundary = none :=
  ⟨c10_boundary_mode_filter.1 geomAll objsMix _ (by decide),
   c10_boundary_mode_filter.2 objsMix relAdm (by decide) (by decide)⟩
